import Mathlib

/-!
Verification of the burnell tenant-policy materialized store
(`src/policy` package, with the function-metadata analogue in `src/logclient`).

The Go code is shallowly embedded: the in-memory `tenants` map becomes an
explicit `Cache` value threaded through each operation; each call to
`time.Now()` becomes an explicit `now : Int` parameter; the fallible
producer path (create producer, marshal, send) is abstracted by a single
`sendOk : Bool` outcome, since the cache is only touched after all three
succeed in the source.
-/

namespace Burnell

/-- Modelled from the spec: the tenant status enumeration (type and constant
definitions are not under `src/`). `Reserved0` is the zero value ("Unset" in
the spec); the source references `Reserved0`, `Activated` and `Deleted`. -/
inductive TenantStatus where
  | Reserved0
  | Activated
  | Deactivated
  | Deleted
deriving DecidableEq, Repr

/-- Modelled from the spec: the nested plan-policy struct (its definition is
not under `src/`); it carries exactly the fields the source code reads:
numeric quotas, retention, and string attributes. `MessageRetention` models
the Go `time.Duration` as an integer number of nanoseconds. -/
structure PlanPolicy where
  Name : String
  NumOfTopics : Int
  NumOfNamespaces : Int
  NumOfProducers : Int
  NumOfConsumers : Int
  Functions : Int
  MessageHourRetention : Int
  MessageRetention : Int
  FeatureCodes : String
deriving DecidableEq, Repr

/-- Modelled from the spec: the tenant policy record (its definition is not
under `src/`); it carries exactly the fields the source code reads.
`UpdatedAt` models the Go `time.Time` as an integer instant, zero-valued in
the empty record. -/
structure TenantPlan where
  Name : String
  TenantStatus : TenantStatus
  Org : String
  Users : String
  PlanType : String
  UpdatedAt : Int
  Policy : PlanPolicy
  Audit : String
deriving DecidableEq, Repr

/-- The Go zero value `PlanPolicy\x7b\x7d`. -/
def emptyPolicy : PlanPolicy :=
  { Name := "", NumOfTopics := 0, NumOfNamespaces := 0, NumOfProducers := 0,
    NumOfConsumers := 0, Functions := 0, MessageHourRetention := 0,
    MessageRetention := 0, FeatureCodes := "" }

/-- The Go zero value `TenantPlan\x7b\x7d`, used by the source as the
"record does not exist" sentinel. -/
def emptyPlan : TenantPlan :=
  { Name := "", TenantStatus := .Reserved0, Org := "", Users := "",
    PlanType := "", UpdatedAt := 0, Policy := emptyPolicy, Audit := "" }

/-- One hour expressed in nanoseconds (the unit of Go `time.Duration`). -/
def hourNs : Int := 3600000000000

/-- Modelled from the spec: `util.AssignString` (the `util` package is not
under `src/`) returns the first non-empty string of its arguments; the
source always calls it with two. -/
def AssignString (a b : String) : String :=
  if a ≠ "" then a else b

/-- Modelled from the spec: `getPlanPolicy` (the plan-policy table is not
under `src/`) maps a recognized plan-type string to the class-default
policy and yields `none` for an unknown type. Two representative plan
classes with non-zero defaults are provided; the claims depend only on
recognized-vs-unknown and on the defaults being non-zero. -/
def freePlanPolicy : PlanPolicy :=
  { Name := "free", NumOfTopics := 5, NumOfNamespaces := 1, NumOfProducers := 3,
    NumOfConsumers := 5, Functions := 1, MessageHourRetention := 48,
    MessageRetention := 48 * hourNs, FeatureCodes := "" }

/-- Modelled from the spec: the class-default policy of a second recognized
plan type. -/
def productionPlanPolicy : PlanPolicy :=
  { Name := "production", NumOfTopics := 100, NumOfNamespaces := 10,
    NumOfProducers := 60, NumOfConsumers := 120, Functions := 30,
    MessageHourRetention := 168, MessageRetention := 168 * hourNs,
    FeatureCodes := "" }

/-- Modelled from the spec: the recognized-plan-type lookup. -/
def getPlanPolicy : String → Option PlanPolicy
  | "free" => some freePlanPolicy
  | "production" => some productionPlanPolicy
  | _ => none

/-- The Go `strings.ToLower` ASCII case mapping on one character. Defined
structurally so that concrete runs reduce inside the kernel; the plan-type
strings in play are ASCII, where this agrees with Go. -/
def lowerChar (ch : Char) : Char :=
  if 65 ≤ ch.toNat ∧ ch.toNat ≤ 90 then Char.ofNat (ch.toNat + 32) else ch

/-- The Go `strings.ToLower` on a whole string. -/
def toLowerStr (s : String) : String :=
  String.mk (s.data.map lowerChar)

/-- Source `takeNonZero` (part_001 lines 304-309): the requested value wins
iff it is non-zero. -/
def takeNonZero (a b : Int) : Int :=
  if a = 0 then b else a

/-- Source `takeTenantStatus` (part_001 lines 311-316): the requested status
wins unless it is the zero sentinel `Reserved0`. -/
def takeTenantStatus (a b : TenantStatus) : TenantStatus :=
  if a = .Reserved0 then b else a

/-- The materialized cache: the source `tenants map[string]TenantPlan`
viewed as a partial map. Lock acquisition is not modelled; each Go
critical section becomes one atomic step on this value. -/
def Cache := String → Option TenantPlan

/-- The empty map (`make(map[string]TenantPlan)`). -/
def Cache.empty : Cache := fun _ => none

/-- Go map assignment `m[k] = v`. -/
def Cache.set (c : Cache) (k : String) (v : TenantPlan) : Cache :=
  fun x => if x = k then some v else c x

/-- Go builtin `delete(m, k)`. -/
def Cache.del (c : Cache) (k : String) : Cache :=
  fun x => if x = k then none else c x

/-- Source `GetTenant` (part_001 lines 231-238): a map lookup under the read
lock; `some t` models the found case `(t, nil)` and `none` models
`(TenantPlan\x7b\x7d, not-found error)`. -/
def GetTenant (c : Cache) (tenantName : String) : Option TenantPlan :=
  c tenantName

/-- Source `ReconcileTenantPlan` (part_001 lines 261-302), with the
`time.Now()` call made explicit as `now`. The result is `some merged` for
the Go `(merged, nil)` and `none` for `(TenantPlan\x7b\x7d, err)`. The
statement order of the source is preserved: stamp `UpdatedAt`, look up the
plan class of the lower-cased requested plan type, then branch on whether
the existing record equals the zero-value sentinel. -/
def ReconcileTenantPlan (now : Int) (reqPlan0 existingPlan : TenantPlan) :
    Option TenantPlan :=
  let reqPlan := { reqPlan0 with UpdatedAt := now }
  match getPlanPolicy (toLowerStr reqPlan.PlanType) with
  | none => none
  | some reqPlanPolicy =>
    if emptyPlan = existingPlan then
      -- this is new creation
      let reqPlan :=
        if reqPlan.Audit = "" then { reqPlan with Audit := "initial creation," }
        else reqPlan
      let reqPlan :=
        if reqPlan.Policy = emptyPolicy then { reqPlan with Policy := reqPlanPolicy }
        else reqPlan
      some { reqPlan with
              TenantStatus := takeTenantStatus reqPlan.TenantStatus .Activated }
    else
      let p := reqPlan.Policy
      let p := { p with NumOfTopics := takeNonZero p.NumOfTopics existingPlan.Policy.NumOfTopics }
      let p := { p with NumOfNamespaces := takeNonZero p.NumOfNamespaces existingPlan.Policy.NumOfNamespaces }
      let p := { p with NumOfProducers := takeNonZero p.NumOfProducers existingPlan.Policy.NumOfProducers }
      let p := { p with NumOfConsumers := takeNonZero p.NumOfConsumers existingPlan.Policy.NumOfConsumers }
      let p := { p with Functions := takeNonZero p.Functions existingPlan.Policy.Functions }
      let p := { p with Name := AssignString p.Name existingPlan.Policy.Name }
      let p := { p with FeatureCodes := AssignString p.FeatureCodes existingPlan.Policy.FeatureCodes }
      let p : PlanPolicy :=
        if p.MessageHourRetention = (0 : Int) then
          { p with MessageHourRetention := existingPlan.Policy.MessageHourRetention }
        else p
      let p := { p with MessageRetention := p.MessageHourRetention * hourNs }
      some { reqPlan with
              Policy := p,
              TenantStatus := takeTenantStatus reqPlan.TenantStatus existingPlan.TenantStatus,
              Org := AssignString reqPlan.Org existingPlan.Org,
              Users := AssignString reqPlan.Users existingPlan.Users,
              Audit := existingPlan.Audit ++ "," ++ reqPlan.Audit }

/-- Source `updateDb` (part_001 lines 189-222). `sendOk` abstracts the three
fallible steps before the cache write (producer creation, `json.Marshal`,
acknowledged `Send`): the source returns the error with the cache untouched
if any of them fails, and only after all succeed stamps `UpdatedAt` and
stores the record under its own `Name`. Result: new cache, and `some plan`
for `(plan, nil)` or `none` for `(TenantPlan\x7b\x7d, err)`. -/
def updateDb (now : Int) (sendOk : Bool) (c : Cache) (tenantPlan : TenantPlan) :
    Cache × Option TenantPlan :=
  if sendOk then
    let tenantPlan := { tenantPlan with UpdatedAt := now }
    (c.set tenantPlan.Name tenantPlan, some tenantPlan)
  else
    (c, none)

/-- Source `UpdateTenant` (part_001 lines 173-186), with the two
`time.Now()` call sites (inside `ReconcileTenantPlan` and inside
`updateDb`) explicit as `now1` and `now2`. The ignored `GetTenant` error
means a missing record enters reconciliation as the zero value. Result:
new cache, `some plan` or `none` on error, and the HTTP status code. -/
def UpdateTenant (now1 now2 : Int) (sendOk : Bool) (c : Cache)
    (tenantName : String) (tenantPlan : TenantPlan) :
    Cache × Option TenantPlan × Nat :=
  let existingTenant := (GetTenant c tenantName).getD emptyPlan
  let tenantPlan := { tenantPlan with Name := tenantName }
  match ReconcileTenantPlan now1 tenantPlan existingTenant with
  | none => (c, none, 422)
  | some newPlan =>
    match updateDb now2 sendOk c newPlan with
    | (c1, none) => (c1, none, 500)
    | (c1, some updatedPlan) => (c1, some updatedPlan, 200)

/-- Source `DeleteTenant` (part_001 lines 241-258): look the record up,
mark it `Deleted`, run it through `updateDb`, and only after a successful
append delete the key from the cache. The returned plan is the local
tombstoned copy (the source does not restamp its `UpdatedAt`). -/
def DeleteTenant (now : Int) (sendOk : Bool) (c : Cache) (tenantName : String) :
    Cache × Option TenantPlan :=
  match c tenantName with
  | none => (c, none)
  | some t =>
    let t := { t with TenantStatus := TenantStatus.Deleted }
    match updateDb now sendOk c t with
    | (c1, none) => (c1, none)
    | (c1, some _) => (c1.del tenantName, some t)

/-- How one received log entry is applied to the cache by the source
`dbListener` loop body (part_001 lines 162-168): a record whose status is
not `Deleted` is stored under its own `Name`; a tombstone deletes the key. -/
def applyTenantEntry (c : Cache) (t : TenantPlan) : Cache :=
  if t.TenantStatus ≠ .Deleted then c.set t.Name t else c.del t.Name

/-- A sequence of log entries applied in log order. -/
def applyTenantEntries (c : Cache) : List TenantPlan → Cache
  | [] => c
  | t :: rest => applyTenantEntries (applyTenantEntry c t) rest

/-- One item delivered to the `dbListener` loop: either a `reader.Next`
error, or a payload whose `json.Unmarshal` outcome is the flag `parseErr`
together with the value `t` left in the target variable (the zero value,
possibly partially overwritten, when `parseErr` is true). -/
inductive ReadItem where
  | readErr
  | entry (parseErr : Bool) (t : TenantPlan)
deriving DecidableEq, Repr

/-- The source `dbListener` receive loop (part_001 lines 150-169) run over a
finite prefix of the delivered items. The `Bool` is true iff the loop
returned (and hence, via its deferred send, signalled termination to the
watchdog). Faithful to the source, an unmarshal error is only logged: the
record is still applied and the loop continues; only a reader error
returns. -/
def dbListenerRun : Cache → List ReadItem → Cache × Bool
  | c, [] => (c, false)
  | c, .readErr :: _ => (c, true)
  | c, .entry _ t :: rest => dbListenerRun (applyTenantEntry c t) rest

/-- A record with its `UpdatedAt` stamp cleared, for comparing
reconciliation results up to the write timestamp. -/
def stripTime (t : TenantPlan) : TenantPlan := { t with UpdatedAt := 0 }

/-- The §3 invariant of the spec: no cached record has status `Deleted`. -/
def NoDeleted (c : Cache) : Prop :=
  ∀ k v, c k = some v → v.TenantStatus ≠ .Deleted

/-- The key/name coherence invariant: every cached record is stored under
its own `Name`. -/
def NameCoherent (c : Cache) : Prop :=
  ∀ k v, c k = some v → v.Name = k

/-- The effect of one log entry on its own key as the `dbListener` applies
it: `some t` for an upsert, `none` for a tombstone. -/
def entryOutcome (t : TenantPlan) : Option TenantPlan :=
  if t.TenantStatus ≠ .Deleted then some t else none

/-- The effect of the last entry of the list on key `k`, if any entry of
the list touches `k` at all. -/
def lastWrite : List TenantPlan → String → Option (Option TenantPlan)
  | [], _ => none
  | t :: rest, k =>
    match lastWrite rest k with
    | some o => some o
    | none => if t.Name = k then some (entryOutcome t) else none

/-- The ordered entry sequence replayed `n` times from the empty cache. -/
def replayTimes (n : Nat) (es : List TenantPlan) : Cache :=
  (fun c => applyTenantEntries c es)^[n] Cache.empty

/-- The function-metadata record built by `ParseServiceRequest`
(part_000 lines 28-39). -/
structure FunctionType where
  Tenant : String
  Namespace : String
  FunctionName : String
  FunctionWorkerID : String
  InputTopics : List String
  InputTopicRegex : String
  SinkTopic : String
  LogTopic : String
  AutoAck : Bool
  Parallism : Int
deriving DecidableEq, Repr

/-- Modelled from the spec: the fields of the protobuf
`pb.FunctionMetaData.FunctionDetails` that `ParseServiceRequest` reads (the
generated `pb` package is not under `src/`). `InputSpecs` keeps only the
keys of the Go map, in some fixed order. -/
structure FunctionDetails where
  Tenant : String
  Namespace : String
  Name : String
  TopicsPattern : String
  InputSpecs : List String
  SinkTopic : String
  LogTopic : String
  AutoAck : Bool
  Parallelism : Int
deriving DecidableEq, Repr

/-- Modelled from the spec: the service-request type of the function
metadata topic, carrying create/update/delete events; the source only
distinguishes `DELETE` from everything else. -/
inductive ServiceRequestType where
  | CREATE
  | UPDATE
  | DELETE
deriving DecidableEq, Repr

/-- Modelled from the spec: the envelope `pb.ServiceRequest` as read by the
`ReaderLoop` (function metadata, worker id, request type). -/
structure ServiceRequest where
  FunctionMetaData : FunctionDetails
  WorkerId : String
  ServiceRequestType : ServiceRequestType
deriving DecidableEq, Repr

/-- The function-metadata materialized cache (`functionMap`). -/
def FnCache := String → Option FunctionType

/-- The empty function map. -/
def FnCache.empty : FnCache := fun _ => none

/-- Source `WriteFunctionMap` (part_000 lines 57-61). -/
def WriteFunctionMap (m : FnCache) (key : String) (f : FunctionType) : FnCache :=
  fun x => if x = key then some f else m x

/-- Source `DeleteFunctionMap` (part_000 lines 64-72). -/
def DeleteFunctionMap (m : FnCache) (key : String) : FnCache :=
  fun x => if x = key then none else m x

/-- Source `ParseServiceRequest` (part_000 lines 134-159): the key is the
concatenation tenant+namespace+function name; a `DELETE` request removes
the key, any other request stores the freshly built `FunctionType`. -/
def ParseServiceRequest (m : FnCache) (sr : FunctionDetails) (workerID : String)
    (serviceType : ServiceRequestType) : FnCache :=
  let key := sr.Tenant ++ sr.Namespace ++ sr.Name
  if serviceType = .DELETE then
    DeleteFunctionMap m key
  else
    let f : FunctionType :=
      { Tenant := sr.Tenant, Namespace := sr.Namespace, FunctionName := sr.Name,
        FunctionWorkerID := workerID,
        InputTopics := sr.InputSpecs ++
          (if sr.TopicsPattern.length > 0 then [sr.TopicsPattern] else []),
        InputTopicRegex := sr.TopicsPattern, SinkTopic := sr.SinkTopic,
        LogTopic := sr.LogTopic, AutoAck := sr.AutoAck,
        Parallism := sr.Parallelism }
    WriteFunctionMap m key f

/-- One item delivered to the `ReaderLoop`: either a `reader.Next` error, or
a message whose `proto.Unmarshal` outcome is the flag `parseErr` together
with the `ServiceRequest` value left in the target variable. -/
inductive FnReadItem where
  | readErr
  | msg (parseErr : Bool) (sr : ServiceRequest)
deriving DecidableEq, Repr

/-- The source `ReaderLoop` receive loop (part_000 lines 119-129) run over a
finite prefix of the delivered items. The `Bool` is true iff the loop
returned (and hence, via its deferred send, signalled the watchdog).
Faithful to the source, the `proto.Unmarshal` error is ignored entirely:
`ParseServiceRequest` is applied regardless, and only a reader error
returns. -/
def ReaderLoopRun : FnCache → List FnReadItem → FnCache × Bool
  | m, [] => (m, false)
  | m, .readErr :: _ => (m, true)
  | m, .msg _ sr :: rest =>
      ReaderLoopRun
        (ParseServiceRequest m sr.FunctionMetaData sr.WorkerId sr.ServiceRequestType)
        rest

/-! ## Helper lemmas -/

/-- Reconciliation never changes the `Name` of the requested plan. -/
theorem reconcile_name (now : Int) (r e m : TenantPlan)
    (h : ReconcileTenantPlan now r e = some m) : m.Name = r.Name := by
  obtain ⟨nm, st, org, users, pt, upd, pol, audit⟩ := r
  simp only [ReconcileTenantPlan] at h
  cases hp : getPlanPolicy (toLowerStr pt) <;> rw [hp] at h
  · exact absurd h (by simp)
  · by_cases he : emptyPlan = e <;>
      by_cases hA : audit = "" <;>
      by_cases hP : pol = emptyPolicy <;>
      simp [he, hA, hP] at h <;>
      simp [← h]

/-- Pointwise description of a replayed entry sequence: a key touched by
some entry ends at the outcome of the last entry touching it, and an
untouched key keeps its prior value. -/
theorem applyTenantEntries_lookup (es : List TenantPlan) (c : Cache) (k : String) :
    applyTenantEntries c es k = (lastWrite es k).getD (c k) := by
  induction es generalizing c with
  | nil => rfl
  | cons t rest ih =>
    simp only [applyTenantEntries, lastWrite]
    rw [ih]
    cases h : lastWrite rest k
    · by_cases hk : t.Name = k
      · subst hk
        by_cases hst : t.TenantStatus = TenantStatus.Deleted <;>
          simp [applyTenantEntry, entryOutcome, Cache.set, Cache.del, hst]
      · have hk2 : ¬(k = t.Name) := fun hx => hk hx.symm
        by_cases hst : t.TenantStatus = TenantStatus.Deleted <;>
          simp [applyTenantEntry, entryOutcome, Cache.set, Cache.del, hst, hk, hk2]
    · simp [h]

/-- Replaying the same entry sequence over its own replay from the empty
cache is a no-op. -/
theorem applyTenantEntries_idem (es : List TenantPlan) :
    applyTenantEntries (applyTenantEntries Cache.empty es) es =
      applyTenantEntries Cache.empty es := by
  funext k
  rw [applyTenantEntries_lookup, applyTenantEntries_lookup]
  cases h : lastWrite es k <;> simp [h, Cache.empty]

/-! ## C1 — consumer-loop behaviour on malformed entries -/

/-- C1 counterexample: a single malformed log entry (unmarshal error, with
the target variable left at the zero value) does NOT terminate the
`dbListener` loop — the run reports no termination signal — and the
zero-value record IS applied to the cache, stored under the empty key.
This refutes the claim that a deserialization failure is fatal and that no
zero-value record is ever applied. -/
theorem C1_counterexample :
    (dbListenerRun Cache.empty [ReadItem.entry true emptyPlan]).2 = false ∧
    (dbListenerRun Cache.empty [ReadItem.entry true emptyPlan]).1 "" =
      some emptyPlan := by
  constructor
  · rfl
  · decide

/-- C1 (amended): in both consumer loops only a read error from the log
terminates the loop (and hence signals the watchdog); an entry whose
payload fails to deserialize is merely logged — the resulting record (zero
or partially filled) is still applied to the cache and the loop continues
with the next entry. -/
theorem C1_loop_termination :
    (∀ c items, (dbListenerRun c items).2 = true ↔ ReadItem.readErr ∈ items) ∧
    (∀ c pe t rest, dbListenerRun c (ReadItem.entry pe t :: rest) =
        dbListenerRun (applyTenantEntry c t) rest) ∧
    (∀ m items, (ReaderLoopRun m items).2 = true ↔ FnReadItem.readErr ∈ items) ∧
    (∀ m pe sr rest, ReaderLoopRun m (FnReadItem.msg pe sr :: rest) =
        ReaderLoopRun
          (ParseServiceRequest m sr.FunctionMetaData sr.WorkerId sr.ServiceRequestType)
          rest) := by
  refine ⟨?_, fun c pe t rest => rfl, ?_, fun m pe sr rest => rfl⟩
  · intro c items
    induction items generalizing c with
    | nil => simp [dbListenerRun]
    | cons i rest ih =>
      cases i with
      | readErr => simp [dbListenerRun]
      | entry pe t => simp [dbListenerRun, ih]
  · intro m items
    induction items generalizing m with
    | nil => simp [ReaderLoopRun]
    | cons i rest ih =>
      cases i with
      | readErr => simp [ReaderLoopRun]
      | msg pe sr => simp [ReaderLoopRun, ih]

/-- C1 witness: instantiating the amended theorem — a run whose input is a
single read error terminates with the signal sent. -/
theorem C1_witness :
    (dbListenerRun Cache.empty [ReadItem.readErr]).2 = true :=
  (C1_loop_termination.1 Cache.empty [ReadItem.readErr]).mpr (by decide)

/-! ## C2 — tombstoned records and the cache -/

/-- C2 counterexample: starting from the empty cache, the public operation
`UpdateTenant` invoked with a request that explicitly carries status
`Deleted` succeeds (HTTP 200) and leaves a record with status `Deleted`
in the tenants cache, because `updateDb` stores whatever record it is
given. This refutes the claim that no reachable state contains a
`Deleted` record. -/
theorem C2_counterexample :
    ((UpdateTenant 0 0 true Cache.empty "acme"
        { emptyPlan with
            PlanType := "free"
            TenantStatus := TenantStatus.Deleted }).2.2 = 200) ∧
    (((UpdateTenant 0 0 true Cache.empty "acme"
        { emptyPlan with
            PlanType := "free"
            TenantStatus := TenantStatus.Deleted }).1 "acme").map
        TenantPlan.TenantStatus = some TenantStatus.Deleted) := by
  constructor
  · decide
  · decide

/-- C2 (amended): the consumer loop does preserve the no-`Deleted`
invariant (a tombstone entry deletes its key instead of being stored), and
a successful `DeleteTenant` ends with the key absent; but `updateDb` `Set`s
the record it is given unconditionally, so the tombstoned record is stored
in the cache at the intermediate point of `DeleteTenant` between the
append and the final `delete` — and, via an `UpdateTenant` whose request
carries status `Deleted`, even durably. -/
theorem C2_tombstone_behaviour :
    (∀ c t, NoDeleted c → NoDeleted (applyTenantEntry c t)) ∧
    (∀ now ok c name r, (DeleteTenant now ok c name).2 = some r →
        (DeleteTenant now ok c name).1 name = none) ∧
    (∀ now c t, t.TenantStatus = TenantStatus.Deleted →
        (updateDb now true c t).1 t.Name = some { t with UpdatedAt := now }) := by
  refine ⟨?_, ?_, ?_⟩
  · intro c t h k v hk
    by_cases hst : t.TenantStatus = TenantStatus.Deleted
    · rw [applyTenantEntry, if_neg (by simp [hst])] at hk
      simp only [Cache.del] at hk
      by_cases hkt : k = t.Name
      · simp [hkt] at hk
      · rw [if_neg hkt] at hk
        exact h k v hk
    · rw [applyTenantEntry, if_pos (by simp [hst])] at hk
      simp only [Cache.set] at hk
      by_cases hkt : k = t.Name
      · rw [if_pos hkt] at hk
        obtain rfl : t = v := by simpa using hk
        exact hst
      · rw [if_neg hkt] at hk
        exact h k v hk
  · intro now ok c name r h
    simp only [DeleteTenant] at *
    revert h
    cases hc : c name <;> cases ok <;> intro h
    · simp at h
    · simp at h
    · simp [updateDb] at h
    · simp [updateDb, Cache.del]
  · intro now c t ht
    simp [updateDb, Cache.set]

/-- C2 witness: instantiating the amended theorem at concrete inputs — a
tombstoned record stored through `updateDb` sits in the cache under its
own name, and a successful concrete `DeleteTenant` run leaves its key
absent. -/
theorem C2_witness :
    ((updateDb 0 true Cache.empty
        { emptyPlan with
            Name := "acme"
            TenantStatus := TenantStatus.Deleted }).1 "acme" =
      some { emptyPlan with
              Name := "acme"
              TenantStatus := TenantStatus.Deleted
              UpdatedAt := 0 }) ∧
    ((DeleteTenant 0 true
        (Cache.empty.set "acme"
          { emptyPlan with
              Name := "acme"
              TenantStatus := TenantStatus.Activated }) "acme").1 "acme" = none) := by
  constructor
  · exact C2_tombstone_behaviour.2.2 0 Cache.empty
      { emptyPlan with
          Name := "acme"
          TenantStatus := TenantStatus.Deleted } rfl
  · exact C2_tombstone_behaviour.2.1 0 true
      (Cache.empty.set "acme"
        { emptyPlan with
            Name := "acme"
            TenantStatus := TenantStatus.Activated }) "acme"
      { emptyPlan with
          Name := "acme"
          TenantStatus := TenantStatus.Deleted }
      (by decide)

/-! ## C3 — read-your-write -/

/-- C3: whenever reconciliation of the request against the prior cache
state succeeds and the append is acknowledged, `UpdateTenant` returns
HTTP 200 together with the reconciled record (restamped by the writer
with the append-time `UpdatedAt`, as the writer path specifies), and an
immediate `GetTenant` on the resulting cache returns exactly that record —
without any consumer-loop step having run. -/
theorem C3_read_your_write (now1 now2 : Int) (c : Cache) (K : String)
    (R m : TenantPlan)
    (h : ReconcileTenantPlan now1 { R with Name := K }
          ((GetTenant c K).getD emptyPlan) = some m) :
    (UpdateTenant now1 now2 true c K R).2.2 = 200 ∧
    (UpdateTenant now1 now2 true c K R).2.1 = some { m with UpdatedAt := now2 } ∧
    GetTenant (UpdateTenant now1 now2 true c K R).1 K =
      some { m with UpdatedAt := now2 } := by
  have hname : m.Name = K := by
    have hx := reconcile_name now1 { R with Name := K }
      ((GetTenant c K).getD emptyPlan) m h
    simpa using hx
  simp only [UpdateTenant]
  rw [h]
  simp only [updateDb]
  refine ⟨rfl, rfl, ?_⟩
  simp [GetTenant, Cache.set, hname]

/-- C3 witness: a concrete creation write against the empty cache is
immediately visible to `GetTenant`. -/
theorem C3_witness :
    GetTenant (UpdateTenant 0 0 true Cache.empty "acme"
        { emptyPlan with PlanType := "free" }).1 "acme" =
      some { emptyPlan with
              Name := "acme"
              PlanType := "free"
              TenantStatus := TenantStatus.Activated
              Policy := freePlanPolicy
              Audit := "initial creation,"
              UpdatedAt := 0 } :=
  (C3_read_your_write 0 0 Cache.empty "acme"
    { emptyPlan with PlanType := "free" }
    { emptyPlan with
        Name := "acme"
        PlanType := "free"
        TenantStatus := TenantStatus.Activated
        Policy := freePlanPolicy
        Audit := "initial creation," }
    (by decide)).2.2

/-! ## C4 — creation branch of the reconciliation -/

/-- C4 counterexample: a creation request whose policy is only partially
set (one quota non-zero, the rest unset) keeps the partial policy as-is:
the unset `NumOfNamespaces` stays `0` even though the class default for
the recognized plan type is non-zero. The source replaces the policy with
the class default only when the whole requested policy equals the zero
value, so "every unset policy field is populated with the plan-class
default" fails. -/
theorem C4_counterexample :
    ((ReconcileTenantPlan 0
        { emptyPlan with
            PlanType := "free"
            Policy := { emptyPolicy with NumOfTopics := 7 } }
        emptyPlan).map (fun m => m.Policy.NumOfNamespaces) = some 0) ∧
    freePlanPolicy.NumOfNamespaces = 1 := by
  constructor
  · decide
  · decide

/-- C4 (amended): for a recognized plan type, reconciling against the
zero-value sentinel takes the creation branch and yields a record whose
status is `Activated` unless the request carried a non-zero status, whose
audit is the initial-creation marker if the requested audit was empty, and
whose policy is replaced by the whole plan-class default exactly when the
requested policy is entirely zero-valued — a partially set policy is kept
unchanged, unset fields included. -/
theorem C4_creation_branch (now : Int) (r : TenantPlan) (pp : PlanPolicy)
    (hp : getPlanPolicy (toLowerStr r.PlanType) = some pp) :
    ∃ m, ReconcileTenantPlan now r emptyPlan = some m ∧
      m.TenantStatus = takeTenantStatus r.TenantStatus .Activated ∧
      m.Audit = (if r.Audit = "" then "initial creation," else r.Audit) ∧
      m.Policy = (if r.Policy = emptyPolicy then pp else r.Policy) := by
  obtain ⟨nm, st, org, users, pt, upd, pol, audit⟩ := r
  simp only [ReconcileTenantPlan] at *
  rw [hp]
  by_cases hA : audit = "" <;> by_cases hP : pol = emptyPolicy <;>
    simp [hA, hP]

/-- C4 witness: the amended creation branch at a concrete all-default
request. -/
theorem C4_witness :
    ∃ m, ReconcileTenantPlan 5 { emptyPlan with PlanType := "free" } emptyPlan =
        some m ∧
      m.TenantStatus =
        takeTenantStatus ({ emptyPlan with PlanType := "free" } : TenantPlan).TenantStatus
          .Activated ∧
      m.Audit = (if ({ emptyPlan with PlanType := "free" } : TenantPlan).Audit = ""
        then "initial creation," else ({ emptyPlan with PlanType := "free" } : TenantPlan).Audit) ∧
      m.Policy = (if ({ emptyPlan with PlanType := "free" } : TenantPlan).Policy = emptyPolicy
        then freePlanPolicy else ({ emptyPlan with PlanType := "free" } : TenantPlan).Policy) :=
  C4_creation_branch 5 { emptyPlan with PlanType := "free" } freePlanPolicy
    (by decide)

/-! ## C5 — update branch of the reconciliation -/

/-- C5 counterexample: the top-level `Name` is a string field the update
branch never merges — a request that leaves `Name` unset (empty) against
an existing record named "acme" produces a merged record whose `Name` is
the empty string, not the inherited "acme". So "keeps each requested
string field iff non-empty and otherwise inherits / never resets a field
the request left unset" fails as a universal statement. -/
theorem C5_counterexample :
    (ReconcileTenantPlan 0 { emptyPlan with PlanType := "free" }
        { emptyPlan with
            Name := "acme"
            PlanType := "free"
            TenantStatus := TenantStatus.Activated }).map TenantPlan.Name =
      some "" := by
  decide

/-- C5 (amended): in the update branch (recognized plan type, existing
record different from the zero sentinel) every merged field follows the
claimed rule — the five numeric quotas and the retention keep the
requested value iff non-zero and inherit otherwise (so requesting quota 0
against existing 5 yields 5 and requesting 7 yields 7), the merged string
fields `Org`, `Users`, `Policy.Name` and `Policy.FeatureCodes` keep the
requested value iff non-empty, and the status is kept unless it is the
zero sentinel — but `Name` and `PlanType` are always taken from the
request, `MessageRetention` is recomputed from the merged hour retention,
and `Audit` is concatenated rather than inherited. -/
theorem C5_update_branch (now : Int) (r e : TenantPlan) (pp : PlanPolicy)
    (hp : getPlanPolicy (toLowerStr r.PlanType) = some pp) (he : e ≠ emptyPlan) :
    ∃ m, ReconcileTenantPlan now r e = some m ∧
      m.Policy.NumOfTopics = takeNonZero r.Policy.NumOfTopics e.Policy.NumOfTopics ∧
      m.Policy.NumOfNamespaces = takeNonZero r.Policy.NumOfNamespaces e.Policy.NumOfNamespaces ∧
      m.Policy.NumOfProducers = takeNonZero r.Policy.NumOfProducers e.Policy.NumOfProducers ∧
      m.Policy.NumOfConsumers = takeNonZero r.Policy.NumOfConsumers e.Policy.NumOfConsumers ∧
      m.Policy.Functions = takeNonZero r.Policy.Functions e.Policy.Functions ∧
      m.Policy.MessageHourRetention =
        (if r.Policy.MessageHourRetention = 0 then e.Policy.MessageHourRetention
         else r.Policy.MessageHourRetention) ∧
      m.Policy.MessageRetention = m.Policy.MessageHourRetention * hourNs ∧
      m.Policy.Name = AssignString r.Policy.Name e.Policy.Name ∧
      m.Policy.FeatureCodes = AssignString r.Policy.FeatureCodes e.Policy.FeatureCodes ∧
      m.Org = AssignString r.Org e.Org ∧
      m.Users = AssignString r.Users e.Users ∧
      m.TenantStatus = takeTenantStatus r.TenantStatus e.TenantStatus ∧
      m.Name = r.Name ∧
      m.PlanType = r.PlanType ∧
      m.UpdatedAt = now ∧
      m.Audit = e.Audit ++ "," ++ r.Audit := by
  have he2 : ¬(emptyPlan = e) := fun hx => he hx.symm
  obtain ⟨nm, st, org, users, pt, upd, pol, audit⟩ := r
  obtain ⟨pn, q1, q2, q3, q4, q5, mhr, mr, fc⟩ := pol
  simp only [ReconcileTenantPlan] at *
  rw [hp]
  by_cases hm : mhr = 0 <;>
    simp [he2, hm, takeNonZero, AssignString, takeTenantStatus]

/-- C5 witness: the amended update branch at concrete inputs, covering
both documented quota examples — a requested zero quota inherits the
existing 5 and a requested 7 wins. -/
theorem C5_witness :
    (∃ m, ReconcileTenantPlan 0 { emptyPlan with PlanType := "free" }
        { emptyPlan with
            Name := "acme"
            PlanType := "free"
            Policy := { emptyPolicy with NumOfTopics := 5 } } = some m ∧
      m.Policy.NumOfTopics = 5) ∧
    (∃ m, ReconcileTenantPlan 0
        { emptyPlan with
            PlanType := "free"
            Policy := { emptyPolicy with NumOfTopics := 7 } }
        { emptyPlan with
            Name := "acme"
            PlanType := "free"
            Policy := { emptyPolicy with NumOfTopics := 5 } } = some m ∧
      m.Policy.NumOfTopics = 7) := by
  constructor
  · obtain ⟨m, hm, h1, -⟩ := C5_update_branch 0
      { emptyPlan with PlanType := "free" }
      { emptyPlan with
          Name := "acme"
          PlanType := "free"
          Policy := { emptyPolicy with NumOfTopics := 5 } }
      freePlanPolicy (by decide) (by decide)
    exact ⟨m, hm, by rw [h1]; decide⟩
  · obtain ⟨m, hm, h1, -⟩ := C5_update_branch 0
      { emptyPlan with
          PlanType := "free"
          Policy := { emptyPolicy with NumOfTopics := 7 } }
      { emptyPlan with
          Name := "acme"
          PlanType := "free"
          Policy := { emptyPolicy with NumOfTopics := 5 } }
      freePlanPolicy (by decide) (by decide)
    exact ⟨m, hm, by rw [h1]; decide⟩

/-! ## C6 — end-to-end example -/

/-- C6: processing in order the create write (key "acme", unset status,
quota 10, recognized plan type) and then the update write (unset status,
quota 0, audit entry "bump") through the writer path yields a final cache
entry for "acme" with status `Activated`, quota 10, and the accumulated
comma-separated audit string "initial creation,,bump" — the update's audit
entry is concatenated after the full existing audit, with nothing
overwritten. -/
theorem C6_end_to_end :
    ((UpdateTenant 0 0 true
        (UpdateTenant 0 0 true Cache.empty "acme"
          { emptyPlan with
              PlanType := "free"
              Policy := { emptyPolicy with NumOfTopics := 10 } }).1
        "acme" { emptyPlan with PlanType := "free", Audit := "bump" }).1
        "acme").map (fun p => (p.TenantStatus, p.Policy.NumOfTopics, p.Audit)) =
      some (TenantStatus.Activated, 10, "initial creation,,bump") := by
  decide

/-! ## C7 — append failure leaves the cache untouched -/

/-- C7: if the append fails (producer creation, serialization or send),
`updateDb` returns the error with the cache exactly as it was — the old
value for every key, or its absence, is preserved — and `UpdateTenant`
surfaces the failure as HTTP 500 with the cache unchanged whenever
reconciliation had succeeded. -/
theorem C7_append_failure :
    (∀ now c p, updateDb now false c p = (c, none)) ∧
    (∀ now1 now2 c K R m,
      ReconcileTenantPlan now1 { R with Name := K }
          ((GetTenant c K).getD emptyPlan) = some m →
      UpdateTenant now1 now2 false c K R = (c, none, 500)) := by
  constructor
  · intro now c p
    rfl
  · intro now1 now2 c K R m h
    simp only [UpdateTenant]
    rw [h]
    rfl

/-- C7 witness: a concrete failed append returns 500 and leaves the empty
cache empty. -/
theorem C7_witness :
    UpdateTenant 0 0 false Cache.empty "acme"
        { emptyPlan with PlanType := "free" } =
      (Cache.empty, none, 500) :=
  C7_append_failure.2 0 0 Cache.empty "acme"
    { emptyPlan with PlanType := "free" }
    { emptyPlan with
        Name := "acme"
        PlanType := "free"
        TenantStatus := TenantStatus.Activated
        Policy := freePlanPolicy
        Audit := "initial creation," }
    (by decide)

/-! ## C8 — idempotent replay -/

/-- C8: replay is idempotent — applying the ordered entry sequence (`Set`
for a non-tombstone status, `Delete` for a tombstone, in log order) to the
empty cache any number of times at least one yields exactly the cache
produced by applying it once. -/
theorem C8_idempotent_replay (es : List TenantPlan) (n : Nat) (hn : 1 ≤ n) :
    replayTimes n es = applyTenantEntries Cache.empty es := by
  induction n with
  | zero => exact absurd hn (by decide)
  | succ m ih =>
    rcases Nat.eq_zero_or_pos m with h0 | hpos
    · subst h0
      simp [replayTimes]
    · rw [replayTimes, Function.iterate_succ_apply']
      have hm := ih hpos
      rw [replayTimes] at hm
      rw [hm]
      exact applyTenantEntries_idem es

/-- C8 witness: a concrete two-entry log (an upsert and a tombstone)
replayed three times equals one replay. -/
theorem C8_witness :
    replayTimes 3
        [{ emptyPlan with Name := "acme", TenantStatus := TenantStatus.Activated },
         { emptyPlan with Name := "acme", TenantStatus := TenantStatus.Deleted }] =
      applyTenantEntries Cache.empty
        [{ emptyPlan with Name := "acme", TenantStatus := TenantStatus.Activated },
         { emptyPlan with Name := "acme", TenantStatus := TenantStatus.Deleted }] :=
  C8_idempotent_replay _ 3 (by decide)

/-! ## C9 — purity and determinism of the reconciliation -/

/-- C9 counterexample: `ReconcileTenantPlan` is not a function of its two
record arguments alone — the embedded `time.Now()` reading is a third
input. Two invocations with equal (requested, existing) records but made
at different instants return different results, because the merged record
carries the call-time `UpdatedAt` stamp. -/
theorem C9_counterexample :
    ReconcileTenantPlan 0 { emptyPlan with PlanType := "free" } emptyPlan ≠
      ReconcileTenantPlan 1 { emptyPlan with PlanType := "free" } emptyPlan := by
  decide

/-- C9 (amended): `ReconcileTenantPlan` is a pure, deterministic function
of its two record arguments and the clock reading: it cannot mutate
`existing` (records are values in the embedding) and, up to the
`UpdatedAt` field — which is stamped with the call time — its result is
entirely determined by (requested, existing): runs at any two instants
agree after the stamp is cleared. -/
theorem C9_deterministic_modulo_stamp (t1 t2 : Int) (r e : TenantPlan) :
    (ReconcileTenantPlan t1 r e).map stripTime =
      (ReconcileTenantPlan t2 r e).map stripTime := by
  obtain ⟨nm, st, org, users, pt, upd, pol, audit⟩ := r
  simp only [ReconcileTenantPlan]
  cases hp : getPlanPolicy (toLowerStr pt) <;>
    by_cases he : emptyPlan = e <;>
    by_cases hA : audit = "" <;>
    by_cases hP : pol = emptyPolicy <;>
    by_cases hm : pol.MessageHourRetention = 0 <;>
    simp [stripTime, he, hA, hP, hm]

/-! ## C10 — key/name coherence -/

/-- C10: every operation preserves the invariant that each cached record
is stored under its own `Name` — the consumer-loop application stores a
record under its `Name`, `updateDb` stores the plan under the plan's
`Name`, `UpdateTenant` and `DeleteTenant` touch the cache only through
those primitives and `delete` — and `UpdateTenant` overwrites the
requested plan's `Name` with its `tenantName` argument before reconciling,
so a conflicting name in the request body is silently ignored. -/
theorem C10_name_coherence :
    (∀ c t, NameCoherent c → NameCoherent (applyTenantEntry c t)) ∧
    (∀ now ok c p, NameCoherent c → NameCoherent (updateDb now ok c p).1) ∧
    (∀ now1 now2 ok c K R, NameCoherent c →
        NameCoherent (UpdateTenant now1 now2 ok c K R).1) ∧
    (∀ now ok c K, NameCoherent c →
        NameCoherent (DeleteTenant now ok c K).1) ∧
    (∀ now1 now2 ok c K R x,
        UpdateTenant now1 now2 ok c K R =
          UpdateTenant now1 now2 ok c K { R with Name := x }) := by
  have hset : ∀ c v, NameCoherent c → NameCoherent (c.set v.Name v) := by
    intro c v h k w hk
    simp only [Cache.set] at hk
    by_cases hkv : k = v.Name
    · obtain rfl : v = w := by simpa [hkv] using hk
      exact hkv.symm
    · rw [if_neg hkv] at hk
      exact h k w hk
  have hdel : ∀ c x, NameCoherent c → NameCoherent (c.del x) := by
    intro c x h k w hk
    simp only [Cache.del] at hk
    by_cases hkx : k = x
    · simp [hkx] at hk
    · rw [if_neg hkx] at hk
      exact h k w hk
  have hupd : ∀ (now : Int) (ok : Bool) (c : Cache) (p : TenantPlan),
      NameCoherent c → NameCoherent (updateDb now ok c p).1 := by
    intro now ok c p h
    cases ok
    · exact h
    · exact hset c { p with UpdatedAt := now } h
  refine ⟨?_, hupd, ?_, ?_, ?_⟩
  · intro c t h
    by_cases hst : t.TenantStatus = TenantStatus.Deleted
    · rw [applyTenantEntry, if_neg (by simp [hst])]
      exact hdel c t.Name h
    · rw [applyTenantEntry, if_pos (by simp [hst])]
      exact hset c t h
  · intro now1 now2 ok c K R h
    rcases hrec : ReconcileTenantPlan now1 { R with Name := K }
        ((GetTenant c K).getD emptyPlan) with - | newPlan
    · simp only [UpdateTenant, hrec]
      exact h
    · simp only [UpdateTenant, hrec]
      have h1 := hupd now2 ok c newPlan h
      rcases hu : updateDb now2 ok c newPlan with ⟨c1, - | u⟩ <;>
        rw [hu] at h1 <;> simpa using h1
  · intro now ok c K h
    rcases hk : c K with - | t
    · simp only [DeleteTenant, hk]
      exact h
    · simp only [DeleteTenant, hk]
      have h1 := hupd now ok c { t with TenantStatus := TenantStatus.Deleted } h
      rcases hu : updateDb now ok c { t with TenantStatus := TenantStatus.Deleted }
        with ⟨c1, - | u⟩ <;> rw [hu] at h1
      · simpa using h1
      · simpa using hdel c1 K (by simpa using h1)
  · intro now1 now2 ok c K R x
    rfl

/-- C10 witness: the invariant instantiated on a concrete write — the
freshly written record sits under its own name and the invariant holds on
the resulting cache. -/
theorem C10_witness :
    NameCoherent (updateDb 0 true Cache.empty
        { emptyPlan with Name := "acme" }).1 :=
  C10_name_coherence.2.1 0 true Cache.empty { emptyPlan with Name := "acme" }
    (fun k v hk => by simp [Cache.empty] at hk)

end Burnell
